import Mathlib

/-!
Shallow embedding of `src/podcast_transcripts.py` (class
`PodcastTranscriptDownloader`), together with proofs about the claims of
the specification.  Strings are modelled as `List Char`; Python regex
character classes are modelled over the code's effective (ASCII) alphabet.
-/

set_option maxRecDepth 4000

/-! ## Title sanitization (`download_transcript`, lines 108-109)

```python
safe_title = re.sub(r'[^\w\s-]', '', episode_title)
safe_title = re.sub(r'[-\s]+', '-', safe_title)
```
-/

/-- The regex class `\w`: letters, digits and the underscore. -/
def isWordChar (c : Char) : Bool := c.isAlphanum || c = '_'

/-- The regex class `\s`: whitespace characters. -/
def isSpaceChar (c : Char) : Bool :=
  c = ' ' || c = '\t' || c = '\n' || c = '\r' || c = '\x0b' || c = '\x0c'

/-- Characters kept by the first substitution, `[^\w\s-]` removed. -/
def isKeepChar (c : Char) : Bool := isWordChar c || isSpaceChar c || c = '-'

/-- Characters forming the runs collapsed by the second substitution, `[-\s]+`. -/
def isRunChar (c : Char) : Bool := c = '-' || isSpaceChar c

/-- `re.sub(r'[-\s]+', '-', s)`: every maximal run of hyphen/whitespace
characters is replaced by a single hyphen.  The boolean records whether the
scan is currently inside such a run. -/
def collapseRuns : List Char → Bool → List Char
  | [], _ => []
  | c :: cs, inRun =>
    if isRunChar c then
      if inRun then collapseRuns cs true else '-' :: collapseRuns cs true
    else c :: collapseRuns cs false

/-- The two substitutions of `download_transcript` building `safe_title`. -/
def sanitizeTitle (l : List Char) : List Char :=
  collapseRuns (l.filter isKeepChar) false

example : sanitizeTitle "My Episode: Part #2!".data = "My-Episode-Part-2".data := by decide

example : sanitizeTitle "a_b".data = "a_b".data := by decide

/-! ## Podcast id extraction (`extract_podcast_id`, lines 32-38)

```python
match = re.search(r'/id(\d+)', apple_podcast_url)
if match:
    return match.group(1)
return None
```
`re.search` finds the leftmost match; `(\d+)` captures the maximal digit
run after the matched `/id`. -/

/-- One attempted match of `/id(\\d+)` at the head of the string: the next
four characters must be `/`, `i`, `d` and a digit; the capture group takes
the maximal digit run (greedy `\\d+`). -/
def matchIdAt (l : List Char) : Option (List Char) :=
  match l with
  | c0 :: c1 :: c2 :: d :: rest =>
    if c0 = '/' && c1 = 'i' && c2 = 'd' && d.isDigit then
      some (d :: rest.takeWhile Char.isDigit)
    else none
  | _ => none

/-- `re.search` semantics: try the pattern at every position from the left,
returning the first successful capture. -/
def extract_podcast_id : List Char → Option (List Char)
  | [] => none
  | c :: cs =>
    match matchIdAt (c :: cs) with
    | some ds => some ds
    | none => extract_podcast_id cs

example :
    extract_podcast_id "https://podcasts.apple.com/us/podcast/name/id123456789".data
      = some "123456789".data := by decide

example : extract_podcast_id "x/id1234567890".data = some "1234567890".data := by decide

example : extract_podcast_id "https://example.com/podcast".data = none := by decide

/-! ## Lemmas about `collapseRuns` -/

lemma collapseRuns_mem : ∀ (l : List Char) (b : Bool) (c : Char),
    c ∈ collapseRuns l b → c = '-' ∨ (c ∈ l ∧ isRunChar c = false) := by
  intro l
  induction l with
  | nil => intro b c h; simp [collapseRuns] at h
  | cons a as ih =>
    intro b c h
    cases hra : isRunChar a with
    | true =>
      cases b with
      | false =>
        simp only [collapseRuns, hra, if_true, Bool.false_eq_true, if_false,
          List.mem_cons] at h
        rcases h with h1 | h1
        · exact Or.inl h1
        · rcases ih true c h1 with h2 | ⟨hm, hr⟩
          · exact Or.inl h2
          · exact Or.inr ⟨List.mem_cons_of_mem _ hm, hr⟩
      | true =>
        simp only [collapseRuns, hra, if_true] at h
        rcases ih true c h with h2 | ⟨hm, hr⟩
        · exact Or.inl h2
        · exact Or.inr ⟨List.mem_cons_of_mem _ hm, hr⟩
    | false =>
      simp only [collapseRuns, hra, Bool.false_eq_true, if_false, List.mem_cons] at h
      rcases h with h1 | h1
      · subst h1
        exact Or.inr ⟨List.mem_cons_self _ _, hra⟩
      · rcases ih false c h1 with h2 | ⟨hm, hr⟩
        · exact Or.inl h2
        · exact Or.inr ⟨List.mem_cons_of_mem _ hm, hr⟩

lemma collapseRuns_idem : ∀ l : List Char,
    (∀ b, collapseRuns (collapseRuns l true) b = collapseRuns l true) ∧
      collapseRuns (collapseRuns l false) false = collapseRuns l false := by
  intro l
  induction l with
  | nil => exact ⟨fun b => rfl, rfl⟩
  | cons a as ih =>
    cases hra : isRunChar a with
    | true =>
      constructor
      · intro b
        simp only [collapseRuns, hra, if_true]
        exact ih.1 b
      · have hrun : isRunChar '-' = true := by decide
        simp only [collapseRuns, hra, hrun, if_true, Bool.false_eq_true, if_false]
        exact congrArg _ (ih.1 true)
    | false =>
      constructor
      · intro b
        simp only [collapseRuns, hra, Bool.false_eq_true, if_false]
        exact congrArg _ ih.2
      · simp only [collapseRuns, hra, Bool.false_eq_true, if_false]
        exact congrArg _ ih.2

lemma sanitizeTitle_filter (l : List Char) :
    (sanitizeTitle l).filter isKeepChar = sanitizeTitle l := by
  rw [List.filter_eq_self]
  intro c hc
  rcases collapseRuns_mem _ _ _ hc with h | ⟨hm, _⟩
  · subst h; decide
  · exact List.of_mem_filter hm

/-- **C3** — Title sanitization is idempotent: for every title, sanitizing an
already-sanitized title yields the same string; in particular sanitizing
`"My Episode: Part #2!"` yields `"My-Episode-Part-2"`. -/
theorem c3_sanitize_idempotent :
    (∀ l : List Char, sanitizeTitle (sanitizeTitle l) = sanitizeTitle l) ∧
      sanitizeTitle "My Episode: Part #2!".data = "My-Episode-Part-2".data := by
  constructor
  · intro l
    show collapseRuns ((sanitizeTitle l).filter isKeepChar) false = sanitizeTitle l
    rw [sanitizeTitle_filter]
    exact (collapseRuns_idem (l.filter isKeepChar)).2
  · decide

/-! ## C2 — characters of a sanitized title -/

/-- **C2 counterexample** — Python's `\w` keeps the underscore, so the claim
that a sanitized title "contains no character other than letters, digits, and
hyphens" fails on the title `"a_b"`: it sanitizes to itself and contains `'_'`,
which is neither a letter, a digit, nor a hyphen. -/
theorem c2_counterexample :
    sanitizeTitle "a_b".data = "a_b".data ∧ '_' ∈ sanitizeTitle "a_b".data ∧
      ¬('_'.isAlpha = true ∨ '_'.isDigit = true ∨ '_' = '-') := by decide

/-- **C2 (amended)** — the filename stem is obtained by removing every
character outside word characters (letters/digits/underscore), whitespace and
hyphen, then collapsing every whitespace/hyphen run to a single hyphen; in
particular, the sanitized result contains no character other than word
characters (letters, digits, underscore) and hyphens. -/
theorem c2_sanitize_chars (t : List Char) (c : Char) (hc : c ∈ sanitizeTitle t) :
    isWordChar c = true ∨ c = '-' := by
  rcases collapseRuns_mem _ _ _ hc with h | ⟨hm, hr⟩
  · exact Or.inr h
  · left
    have hk : isKeepChar c = true := List.of_mem_filter hm
    simp only [isKeepChar, isRunChar, Bool.or_eq_true, Bool.or_eq_false_iff,
      decide_eq_true_eq, decide_eq_false_iff_not] at hk hr
    rcases hk with (hk | hk) | hk
    · exact hk
    · exact absurd hk (by simp [hr.2])
    · exact absurd hk hr.1

theorem c2_sanitize_chars_witness :
    isWordChar 'a' = true ∨ 'a' = '-' :=
  c2_sanitize_chars "a b".data 'a' (by decide)

/-! ## C6 — characterization of `extract_podcast_id` -/

/-- The URL contains a `/id<digits>` segment: an occurrence of `/id`
immediately followed by at least one digit. -/
def HasIdSeg (url : List Char) : Prop :=
  ∃ pre d suf, url = pre ++ '/' :: 'i' :: 'd' :: d :: suf ∧ d.isDigit = true

lemma matchIdAt_pos (d : Char) (rest : List Char) (hd : d.isDigit = true) :
    matchIdAt ('/' :: 'i' :: 'd' :: d :: rest)
      = some (d :: rest.takeWhile Char.isDigit) := by
  simp [matchIdAt, hd]

lemma matchIdAt_some {l ds : List Char} (h : matchIdAt l = some ds) :
    ∃ d rest, l = '/' :: 'i' :: 'd' :: d :: rest ∧ d.isDigit = true ∧
      ds = d :: rest.takeWhile Char.isDigit := by
  rcases l with _ | ⟨c0, _ | ⟨c1, _ | ⟨c2, _ | ⟨d, rest⟩⟩⟩⟩
  · simp [matchIdAt] at h
  · simp [matchIdAt] at h
  · simp [matchIdAt] at h
  · simp [matchIdAt] at h
  · simp only [matchIdAt] at h
    by_cases hc : (c0 = '/' && c1 = 'i' && c2 = 'd' && d.isDigit) = true
    · rw [if_pos hc] at h
      have hb := hc
      simp only [Bool.and_eq_true, decide_eq_true_eq] at hb
      obtain ⟨⟨⟨h0, h1⟩, h2⟩, h3⟩ := hb
      subst h0; subst h1; subst h2
      exact ⟨d, rest, rfl, h3, (Option.some.inj h).symm⟩
    · rw [if_neg hc] at h
      exact absurd h (by simp)

lemma extract_some_of_seg : ∀ url : List Char,
    HasIdSeg url → ∃ ds, extract_podcast_id url = some ds := by
  intro url
  induction url with
  | nil =>
    rintro ⟨pre, d, suf, heq, -⟩
    exact absurd heq (by simp)
  | cons c cs ih =>
    rintro ⟨pre, d, suf, heq, hd⟩
    cases hm : matchIdAt (c :: cs) with
    | some ds => exact ⟨ds, by simp [extract_podcast_id, hm]⟩
    | none =>
      cases pre with
      | nil =>
        simp only [List.nil_append] at heq
        rw [heq, matchIdAt_pos d suf hd] at hm
        exact absurd hm (by simp)
      | cons p ps =>
        simp only [List.cons_append, List.cons.injEq] at heq
        obtain ⟨ds, hds⟩ := ih ⟨ps, d, suf, heq.2, hd⟩
        exact ⟨ds, by simp [extract_podcast_id, hm, hds]⟩

lemma extract_some_sound : ∀ url ds : List Char, extract_podcast_id url = some ds →
    ds ≠ [] ∧ ds.all Char.isDigit = true ∧
      ∃ pre suf, url = pre ++ '/' :: 'i' :: 'd' :: (ds ++ suf) ∧
        ∀ c, suf.head? = some c → c.isDigit = false := by
  intro url
  induction url with
  | nil => intro ds h; simp [extract_podcast_id] at h
  | cons c cs ih =>
    intro ds h
    cases hm : matchIdAt (c :: cs) with
    | some ds' =>
      have hds : ds' = ds := by
        simpa [extract_podcast_id, hm] using h
      subst hds
      obtain ⟨d, rest, hl, hd, hds⟩ := matchIdAt_some hm
      subst hds
      refine ⟨by simp, ?_, [], rest.dropWhile Char.isDigit, ?_, ?_⟩
      · rw [List.all_eq_true]
        intro x hx
        rcases List.mem_cons.mp hx with h1 | h1
        · subst h1; exact hd
        · exact List.mem_takeWhile_imp h1
      · rw [hl]
        simp [List.takeWhile_append_dropWhile]
      · intro x hx
        have hh := List.head?_dropWhile_not Char.isDigit rest
        rw [hx] at hh
        simpa using hh
    | none =>
      have h' : extract_podcast_id cs = some ds := by
        simpa [extract_podcast_id, hm] using h
      obtain ⟨hne, hall, pre, suf, heq, hhd⟩ := ih ds h'
      exact ⟨hne, hall, c :: pre, suf, by rw [heq]; rfl, hhd⟩

/-- **C6 counterexample** — the URL `"x/id1234567890"` contains the substring
`"/id123456789"`, yet extraction yields `"1234567890"` (the maximal digit run),
not `"123456789"`. -/
theorem c6_counterexample :
    ("x/id1234567890".data = "x".data ++ "/id123456789".data ++ "0".data) ∧
      extract_podcast_id "x/id1234567890".data = some "1234567890".data ∧
      extract_podcast_id "x/id1234567890".data ≠ some "123456789".data := by
  decide

/-- **C6 (amended)** — `extract_podcast_id` returns `none` exactly when the URL
has no `/id<digits>` segment; when it returns a string, that string is a
non-empty maximal digit run immediately following an occurrence of `/id` in the
URL; the URL `"https://podcasts.apple.com/us/podcast/name/id123456789"` (whose
digit run is exactly `123456789`) yields `"123456789"`.  It is a pure
function of its argument. -/
theorem c6_extract_podcast_id :
    (∀ url : List Char, extract_podcast_id url = none ↔ ¬ HasIdSeg url) ∧
      (∀ url ds : List Char, extract_podcast_id url = some ds →
        ds ≠ [] ∧ ds.all Char.isDigit = true ∧
          ∃ pre suf, url = pre ++ '/' :: 'i' :: 'd' :: (ds ++ suf) ∧
            ∀ c, suf.head? = some c → c.isDigit = false) ∧
      extract_podcast_id "https://podcasts.apple.com/us/podcast/name/id123456789".data
        = some "123456789".data := by
  refine ⟨?_, extract_some_sound, by decide⟩
  intro url
  constructor
  · intro hnone hseg
    obtain ⟨ds, hds⟩ := extract_some_of_seg url hseg
    rw [hnone] at hds
    exact absurd hds (by simp)
  · intro hseg
    cases hx : extract_podcast_id url with
    | none => rfl
    | some ds =>
      obtain ⟨hne, hall, pre, suf, heq, -⟩ := extract_some_sound url ds hx
      rcases ds with _ | ⟨d, ds'⟩
      · exact absurd rfl hne
      · refine absurd ⟨pre, d, ds' ++ suf, by simpa using heq, ?_⟩ hseg
        exact List.all_eq_true.mp hall d (by simp)

theorem c6_extract_podcast_id_witness :
    "7".data ≠ ([] : List Char) ∧ "7".data.all Char.isDigit = true ∧
      ∃ pre suf, "/id7".data = pre ++ '/' :: 'i' :: 'd' :: ("7".data ++ suf) ∧
        ∀ c, suf.head? = some c → c.isDigit = false :=
  c6_extract_podcast_id.2.1 "/id7".data "7".data (by decide)

/-! ## Artifact writing (`download_transcript`, lines 119-131)

```python
f.write(f"Episode: {episode_title}\n")
f.write(f"Date: {episode_data.get('published', 'Unknown')}\n")
f.write(f"URL: {episode_data.get('link', 'Unknown')}\n")
f.write("-" * 50 + "\n\n")
f.write(transcript_content)
```
-/

/-- The file content written by `download_transcript` for an episode. -/
def writeArtifact (title date link body : List Char) : List Char :=
  "Episode: ".data ++ title ++ ['\n'] ++ "Date: ".data ++ date ++ ['\n'] ++
    "URL: ".data ++ link ++ ['\n'] ++ List.replicate 50 '-' ++ ['\n', '\n'] ++ body

/-- Consume an expected literal token from the head of the input. -/
def dropToken : List Char → List Char → Option (List Char)
  | [], rest => some rest
  | _ :: _, [] => none
  | t :: ts, c :: cs => if c = t then dropToken ts cs else none

/-- Split the input at its first newline. -/
def splitAtNl : List Char → Option (List Char × List Char)
  | [] => none
  | c :: cs =>
    if c = '\n' then some ([], cs)
    else
      match splitAtNl cs with
      | some (a, b) => some (c :: a, b)
      | none => none

/-- Modelled from the spec: the repository has no reader for artifact files;
spec §8 asserts a write/read round-trip, so the reader is modelled from the
spec's description of the artifact layout (three labelled header lines, a
fixed-width separator, a blank line, then the transcript body). -/
def readArtifact (s : List Char) :
    Option (List Char × List Char × List Char × List Char) :=
  (dropToken "Episode: ".data s).bind fun r0 =>
  (splitAtNl r0).bind fun p =>
  (dropToken "Date: ".data p.2).bind fun r2 =>
  (splitAtNl r2).bind fun q =>
  (dropToken "URL: ".data q.2).bind fun r4 =>
  (splitAtNl r4).bind fun w =>
  (dropToken (List.replicate 50 '-' ++ ['\n', '\n']) w.2).bind fun body =>
  some (p.1, q.1, w.1, body)

lemma dropToken_append : ∀ (t rest : List Char), dropToken t (t ++ rest) = some rest
  | [], _ => rfl
  | c :: ts, rest => by
    simp only [List.cons_append, dropToken, if_pos rfl]
    exact dropToken_append ts rest

lemma splitAtNl_append : ∀ (l : List Char), '\n' ∉ l →
    ∀ rest, splitAtNl (l ++ '\n' :: rest) = some (l, rest)
  | [], _, rest => by simp [splitAtNl]
  | c :: cs, h, rest => by
    have hc : ¬c = '\n' := fun hcc => h (hcc ▸ List.mem_cons_self c cs)
    have ih := splitAtNl_append cs (fun hm => h (List.mem_cons_of_mem _ hm)) rest
    simp only [List.cons_append, splitAtNl, if_neg hc]
    rw [show cs.append ('\n' :: rest) = cs ++ '\n' :: rest from rfl, ih]

/-- **C4 counterexample** — a newline inside a header field breaks the round
trip: two distinct (title, date) pairs produce byte-identical artifact files,
so no reader can recover the exact fields; in particular the modelled reader
does not return the original title for the title `"x\nDate: y"`. -/
theorem c4_counterexample :
    writeArtifact "x\nDate: y".data "d".data "u".data "b".data
        = writeArtifact "x".data "y\nDate: d".data "u".data "b".data ∧
      "x\nDate: y".data ≠ "x".data ∧
      readArtifact (writeArtifact "x\nDate: y".data "d".data "u".data "b".data)
        ≠ some ("x\nDate: y".data, "d".data, "u".data, "b".data) := by
  refine ⟨by decide, by decide, ?_⟩
  decide

/-- **C4 (amended)** — for every artifact whose title, date and link contain no
newline character, reading the written file back recovers the exact title,
date, link and transcript body byte-for-byte (the body is unconstrained). -/
theorem c4_roundtrip (t d u b : List Char)
    (ht : '\n' ∉ t) (hd : '\n' ∉ d) (hu : '\n' ∉ u) :
    readArtifact (writeArtifact t d u b) = some (t, d, u, b) := by
  have e1 : writeArtifact t d u b
      = "Episode: ".data ++ (t ++ '\n' :: ("Date: ".data ++ (d ++ '\n' ::
          ("URL: ".data ++ (u ++ '\n' :: (List.replicate 50 '-' ++
            '\n' :: '\n' :: b)))))) := by
    simp [writeArtifact]
  rw [e1]
  simp only [readArtifact, dropToken_append, Option.some_bind]
  rw [splitAtNl_append t ht]
  simp only [Option.some_bind]
  rw [dropToken_append]
  simp only [Option.some_bind]
  rw [splitAtNl_append d hd]
  simp only [Option.some_bind]
  rw [dropToken_append]
  simp only [Option.some_bind]
  rw [splitAtNl_append u hu]
  simp only [Option.some_bind]
  have e2 : List.replicate 50 '-' ++ '\n' :: '\n' :: b
      = (List.replicate 50 '-' ++ ['\n', '\n']) ++ b := by simp
  rw [e2, dropToken_append]
  simp only [Option.some_bind]

theorem c4_roundtrip_witness :
    '\n' ∉ "T".data ∧
      readArtifact (writeArtifact "T".data "D".data "U".data "B".data)
        = some ("T".data, "D".data, "U".data, "B".data) :=
  ⟨by decide, c4_roundtrip "T".data "D".data "U".data "B".data
    (by decide) (by decide) (by decide)⟩

/-! ## Existing-transcript extraction (`check_existing_transcript`, lines 153-193)

The HTTP GET and the two regex searches over the page body are abstracted
into a `PageScan` record; the cleanup applied to an HTML fragment match
(`re.sub(r'<[^>]+>', '', ...)`, `.strip()`, `html.unescape`) is modelled
concretely below.
-/

/-- `re.sub(r'<[^>]+>', '', s)` as a left-to-right scan.  The second argument
is the reversed buffer of a candidate tag opened by `'<'` (`none` when
outside a candidate): on `'>'` the candidate is dropped when it contains at
least one character between the brackets (`[^>]+`), else `<>` stays; a
candidate never closed by `'>'` stays verbatim. -/
def stripTagsAux : List Char → Option (List Char) → List Char
  | [], none => []
  | [], some buf => buf.reverse
  | c :: cs, none =>
    if c = '<' then stripTagsAux cs (some [c]) else c :: stripTagsAux cs none
  | c :: cs, some buf =>
    if c = '>' then
      if 2 ≤ buf.length then stripTagsAux cs none
      else buf.reverse ++ '>' :: stripTagsAux cs none
    else stripTagsAux cs (some (c :: buf))

def stripTags (l : List Char) : List Char := stripTagsAux l none

example : stripTags "a<b>c<".data = "ac<".data := by decide
example : stripTags "<><b>c".data = "<>c".data := by decide

/-- Python `str.strip()`: remove leading and trailing whitespace. -/
def pyStrip (l : List Char) : List Char :=
  ((l.dropWhile isSpaceChar).reverse.dropWhile isSpaceChar).reverse

/-- `html.unescape`, modelled for the basic XML character references; any
other text (including unknown references) is left unchanged, as
`html.unescape` leaves invalid references unchanged. -/
def htmlUnescape : List Char → List Char
  | '&' :: 'a' :: 'm' :: 'p' :: ';' :: rest => '&' :: htmlUnescape rest
  | '&' :: 'l' :: 't' :: ';' :: rest => '<' :: htmlUnescape rest
  | '&' :: 'g' :: 't' :: ';' :: rest => '>' :: htmlUnescape rest
  | '&' :: 'q' :: 'u' :: 'o' :: 't' :: ';' :: rest => '"' :: htmlUnescape rest
  | c :: cs => c :: htmlUnescape cs
  | [] => []

/-- Outcome of scanning the episode page: `jsonLdTranscript` is the value of
the `'transcript'` field when the JSON-LD script block exists, parses as
JSON and has that key (lines 165-172, parse errors fall through); the
`htmlFragment` is the capture group of the first matching
transcript-container pattern (lines 175-183). -/
structure PageScan where
  jsonLdTranscript : Option (List Char)
  htmlFragment : Option (List Char)

/-- `check_existing_transcript`: `none` for the page covers an empty episode
URL and any request error (caught, lines 155-156 and 191-193); a JSON-LD
transcript value is returned as is; an HTML fragment match is returned after
tag stripping, `.strip()` and entity decoding; otherwise `None`. -/
def check_existing_transcript (page : Option PageScan) : Option (List Char) :=
  match page with
  | none => none
  | some scan =>
    match scan.jsonLdTranscript with
    | some v => some v
    | none =>
      match scan.htmlFragment with
      | some frag => some (htmlUnescape (pyStrip (stripTags frag)))
      | none => none

/-! ## Transcript resolution (`fetch_transcript_content`, lines 136-151) -/

/-- Python truthiness of an optional string: `None` and `''` are falsy. -/
def truthyOpt : Option (List Char) → Bool
  | none => false
  | some s => !s.isEmpty

/-- `fetch_transcript_content`: try existing-transcript extraction; if its
result is truthy return it, else fall back to Whisper transcription when the
audio URL is truthy, else `None`.  The boolean records whether
`transcribe_audio_with_whisper` was invoked; `whisperResult` stands for the
value that call would return. -/
def fetch_transcript_content (page : Option PageScan)
    (audio_url whisperResult : Option (List Char)) :
    Option (List Char) × Bool :=
  let transcript := check_existing_transcript page
  if truthyOpt transcript then (transcript, false)
  else if truthyOpt audio_url then (whisperResult, true)
  else (none, false)

/-- **C5** — if existing-transcript extraction succeeds (yields a non-empty
transcript), `fetch_transcript_content` returns exactly that text and the
audio-transcription fallback is never invoked. -/
theorem c5_extraction_short_circuits (page : Option PageScan)
    (audio_url whisperResult : Option (List Char)) (t : List Char)
    (h : check_existing_transcript page = some t) (hne : t ≠ []) :
    fetch_transcript_content page audio_url whisperResult = (some t, false) := by
  have hte : t.isEmpty = false := by
    cases t with
    | nil => exact absurd rfl hne
    | cons a as => rfl
  simp [fetch_transcript_content, h, truthyOpt, hte]

theorem c5_extraction_short_circuits_witness :
    fetch_transcript_content (some ⟨some "T".data, none⟩)
        (some "a".data) (some "W".data) = (some "T".data, false) :=
  c5_extraction_short_circuits _ _ _ "T".data (by rfl) (by decide)

/-- **C9** — an empty extracted transcript (an empty JSON-LD transcript
value, or a matched container whose tag-stripped, stripped, entity-decoded
content is empty) is treated as extraction failure: with a truthy audio URL
the resolver proceeds to audio transcription, and without one it returns
absence; an empty extraction never counts as success. -/
theorem c9_empty_extraction_fails (scan : PageScan)
    (h : scan.jsonLdTranscript = some [] ∨
      (scan.jsonLdTranscript = none ∧ ∃ frag, scan.htmlFragment = some frag ∧
        htmlUnescape (pyStrip (stripTags frag)) = []))
    (audio_url whisperResult : Option (List Char)) :
    check_existing_transcript (some scan) = some [] ∧
      fetch_transcript_content (some scan) audio_url whisperResult
        = if truthyOpt audio_url then (whisperResult, true) else (none, false) := by
  have hce : check_existing_transcript (some scan) = some [] := by
    rcases h with h | ⟨hj, frag, hf, hclean⟩
    · simp [check_existing_transcript, h]
    · simp [check_existing_transcript, hj, hf, hclean]
  refine ⟨hce, ?_⟩
  cases htr : truthyOpt audio_url <;>
    simp [fetch_transcript_content, hce, htr, show truthyOpt (some []) = false from rfl]

theorem c9_empty_extraction_fails_witness :
    (check_existing_transcript (some ⟨none, some " <p></p> ".data⟩) = some [] ∧
      fetch_transcript_content (some ⟨none, some " <p></p> ".data⟩)
          (some "a".data) (some "W".data)
        = if truthyOpt (some "a".data) then (some "W".data, true)
          else (none, false)) :=
  c9_empty_extraction_fails ⟨none, some " <p></p> ".data⟩
    (Or.inr ⟨rfl, " <p></p> ".data, rfl, by decide⟩)
    (some "a".data) (some "W".data)

/-! ## Catalog lookup (`get_podcast_info`, lines 40-54)

```python
try:
    response = self.session.get(url)
    response.raise_for_status()
    data = response.json()
    if data['resultCount'] > 0:
        return data['results'][0]
    return None
except Exception as e:
    print(f"Error fetching podcast info: {e}")
    return None
```
-/

/-- Outcome of the lookup request: a transport error (the GET raises or
`raise_for_status` fires), a body that is not valid JSON (`response.json()`
raises), or a parsed JSON body with its optional `resultCount` and `results`
fields (`none` models a missing key, whose access raises `KeyError`). -/
inductive LookupOutcome (α : Type) where
  | transportError
  | badJson
  | body (resultCount : Option Int) (results : Option (List α))

/-- `get_podcast_info`: every exception is caught by the surrounding
`try`/`except` and turned into `None`; with a parsed body, a positive
`resultCount` returns `results[0]` (an `IndexError` on an empty list is
likewise caught), anything else returns `None`. -/
def get_podcast_info {α : Type} : LookupOutcome α → Option α
  | .transportError => none
  | .badJson => none
  | .body rc results =>
    match rc with
    | none => none
    | some n =>
      if n > 0 then
        match results with
        | none => none
        | some l => l.head?
      else none

/-- **C7** — `get_podcast_info` yields `None` whenever the result-count field
is 0, regardless of the rest of the body; it also yields `None` on a
transport error or malformed JSON (the model is a total function into
`Option`, so no exception escapes); and with a positive result count it
returns the first result object when the result list has one. -/
theorem c7_get_podcast_info {α : Type} :
    (∀ results : Option (List α),
        get_podcast_info (LookupOutcome.body (some 0) results) = none) ∧
      get_podcast_info (@LookupOutcome.transportError α) = none ∧
      get_podcast_info (@LookupOutcome.badJson α) = none ∧
      (∀ (n : Int) (x : α) (xs : List α), 0 < n →
        get_podcast_info (LookupOutcome.body (some n) (some (x :: xs))) = some x) := by
  refine ⟨?_, rfl, rfl, ?_⟩
  · intro results
    simp [get_podcast_info]
  · intro n x xs hn
    simp [get_podcast_info, hn]

theorem c7_get_podcast_info_witness :
    get_podcast_info (LookupOutcome.body (some 2) (some [5])) = some (5 : Nat) :=
  c7_get_podcast_info.2.2.2 2 5 [] (by decide)

/-! ## Audio-URL selection (`download_all_transcripts`, lines 342-350)

```python
audio_url = None
if hasattr(entry, 'enclosures') and entry.enclosures:
    audio_url = entry.enclosures[0].href
elif hasattr(entry, 'links'):
    for link in entry.links:
        if link.get('type', '').startswith('audio/'):
            audio_url = link.href
            break
```
-/

/-- A feed-entry link: its optional declared `type` and its `href`. -/
structure FeedLink where
  linkType : Option (List Char)
  href : List Char

/-- `link.get('type', '').startswith('audio/')`. -/
def isAudioLink (l : FeedLink) : Bool :=
  "audio/".data.isPrefixOf (l.linkType.getD [])

/-- The `for`/`break` loop: href of the first link whose declared type
begins with `audio/`. -/
def findAudioHref : List FeedLink → Option (List Char)
  | [] => none
  | l :: ls => if isAudioLink l then some l.href else findAudioHref ls

/-- Audio-URL selection per entry: the first enclosure's href when the
`enclosures` attribute exists (`none` models a missing attribute) and the
list is non-empty; otherwise the first audio-typed link when the `links`
attribute exists; otherwise `None`. -/
def selectAudioUrl (enclosures : Option (List (List Char)))
    (links : Option (List FeedLink)) : Option (List Char) :=
  match enclosures with
  | some (e :: _) => some e
  | _ =>
    match links with
    | none => none
    | some ls => findAudioHref ls

lemma findAudioHref_first : ∀ (pre : List FeedLink) (l : FeedLink) (post : List FeedLink),
    (∀ p ∈ pre, isAudioLink p = false) → isAudioLink l = true →
    findAudioHref (pre ++ l :: post) = some l.href := by
  intro pre
  induction pre with
  | nil => intro l post _ hl; simp [findAudioHref, hl]
  | cons p ps ih =>
    intro l post hpre hl
    have hp : isAudioLink p = false := hpre p (List.mem_cons_self _ _)
    simp only [List.cons_append, findAudioHref, hp, Bool.false_eq_true, if_false]
    exact ih l post (fun q hq => hpre q (List.mem_cons_of_mem _ hq)) hl

lemma findAudioHref_none : ∀ ls : List FeedLink,
    (∀ l ∈ ls, isAudioLink l = false) → findAudioHref ls = none := by
  intro ls
  induction ls with
  | nil => intro; rfl
  | cons l ls ih =>
    intro h
    have hl : isAudioLink l = false := h l (List.mem_cons_self _ _)
    simp only [findAudioHref, hl, Bool.false_eq_true, if_false]
    exact ih (fun q hq => h q (List.mem_cons_of_mem _ hq))

/-- **C8** — the chosen audio URL is the href of the first enclosure when the
entry has a non-empty enclosures list; otherwise it is the href of the first
link whose declared type begins with `audio/` (no such link, or no links
attribute, yields absence). -/
theorem c8_audio_selection :
    (∀ (e : List Char) (es : List (List Char)) (links : Option (List FeedLink)),
        selectAudioUrl (some (e :: es)) links = some e) ∧
      (∀ (encl : Option (List (List Char))), encl = none ∨ encl = some [] →
        (∀ (pre : List FeedLink) (l : FeedLink) (post : List FeedLink),
            (∀ p ∈ pre, isAudioLink p = false) → isAudioLink l = true →
            selectAudioUrl encl (some (pre ++ l :: post)) = some l.href) ∧
          (∀ ls : List FeedLink, (∀ l ∈ ls, isAudioLink l = false) →
            selectAudioUrl encl (some ls) = none) ∧
          selectAudioUrl encl none = none) := by
  refine ⟨fun e es links => rfl, ?_⟩
  rintro encl (rfl | rfl)
  · exact ⟨fun pre l post hp hl => findAudioHref_first pre l post hp hl,
      fun ls h => findAudioHref_none ls h, rfl⟩
  · exact ⟨fun pre l post hp hl => findAudioHref_first pre l post hp hl,
      fun ls h => findAudioHref_none ls h, rfl⟩

theorem c8_audio_selection_witness :
    selectAudioUrl none (some [⟨some "audio/mpeg".data, "http://x/a.mp3".data⟩])
      = some "http://x/a.mp3".data :=
  (c8_audio_selection.2 none (Or.inl rfl)).1 [] ⟨some "audio/mpeg".data, "http://x/a.mp3".data⟩
    [] (fun p hp => absurd hp (List.not_mem_nil p)) (by decide)

/-! ## Episode download (`download_transcript`, lines 105-134)

The function resolves the transcript via `fetch_transcript_content`; only a
truthy result is written to `<output_dir>/<safe_title>.txt`.  The returned
pair is the boolean result together with the write effect (path and file
content), `none` when no file is written.
-/

def download_transcript (title published link : List Char) (page : Option PageScan)
    (audio_url whisperResult : Option (List Char)) (output_dir : List Char) :
    Bool × Option (List Char × List Char) :=
  let safe_title := sanitizeTitle title
  let transcript_content := (fetch_transcript_content page audio_url whisperResult).1
  match transcript_content with
  | some t =>
    if t.isEmpty then (false, none)
    else (true, some (output_dir ++ '/' :: (safe_title ++ ".txt".data),
      writeArtifact title published link t))
  | none => (false, none)

/-- **C10** — `download_transcript` writes a file if and only if it returns
`True`: when transcript resolution yields absence (or a falsy empty string)
it returns `False` and performs no filesystem write, so no empty or
header-only artifact is ever created for a failed episode. -/
theorem c10_write_iff_true (title published link : List Char) (page : Option PageScan)
    (audio_url whisperResult : Option (List Char)) (output_dir : List Char) :
    ((download_transcript title published link page audio_url whisperResult
        output_dir).1 = true
      ↔ (download_transcript title published link page audio_url whisperResult
          output_dir).2.isSome = true) := by
  unfold download_transcript
  cases htc : (fetch_transcript_content page audio_url whisperResult).1 with
  | none => simp
  | some t =>
    cases hte : t.isEmpty with
    | true => simp [hte]
    | false => simp [hte]

/-! ## Audio transcription (`transcribe_audio_with_whisper`, lines 195-292)

The downloads, the model load and the inference are external effects; what
remains of the control flow is which branch runs and which temporary files
exist on disk at each exit.  A transport attempt has three outcomes: it
succeeds (temp file created, its name recorded in `temp_filename`), it
raises before `tempfile.NamedTemporaryFile` creates the file, or it raises
while streaming into the already-created file — in the last case the file
exists on disk but `temp_filename` was never assigned (the assignment is the
last statement of the `with` block), so no later `os.unlink` can reach it.
The second component of the result counts temporary files left on disk when
the call returns.
-/

/-- Outcome of one download transport attempt (method 1: `requests`,
method 2: `urllib`). -/
inductive DlOutcome where
  | ok
  | failEarly
  | failLate
deriving DecidableEq

structure TranscribeEnv where
  whisperInstalled : Bool    -- `import whisper` raises ImportError when false
  m1 : DlOutcome             -- requests attempt (lines 212-219)
  m2 : DlOutcome             -- urllib attempt (lines 225-238), run only if m1 fails
  fileSize : Nat             -- os.path.getsize of the recorded temp file
  modelLoads : Bool          -- whisper.load_model("base") succeeds
  transcribeOk : Bool        -- model.transcribe returns without raising
  transcribeText : List Char -- result["text"]

/-- Lines 244-281: the zero-size check unlinks the recorded file (249-253);
a model-load failure unlinks it (264-272); success unlinks it and returns
the text (276-281); an exception from `model.transcribe` reaches the outer
handler, which unlinks the recorded file (287-292).  `leaked` counts partial
files already left behind by failed transport attempts. -/
def afterDownload (env : TranscribeEnv) (leaked : Nat) : Option (List Char) × Nat :=
  if env.fileSize = 0 then (none, leaked)
  else if env.modelLoads = false then (none, leaked)
  else if env.transcribeOk = false then (none, leaked)
  else (some env.transcribeText, leaked)

def transcribe_audio_with_whisper (env : TranscribeEnv) : Option (List Char) × Nat :=
  if env.whisperInstalled = false then (none, 0)
  else
    match env.m1 with
    | .ok => afterDownload env 0
    | .failEarly =>
      match env.m2 with
      | .ok => afterDownload env 0
      | .failEarly => (none, 0)
      | .failLate => (none, 1)
    | .failLate =>
      match env.m2 with
      | .ok => afterDownload env 1
      | .failEarly => (none, 1)
      | .failLate => (none, 2)

/-- **C1 counterexample** — when the first transport raises while streaming
into its already-created temp file and the second transport then fails
before creating one, the call yields absence but leaves the partial temp
file of the first attempt on disk: the claimed cleanup on every exit path
fails. -/
theorem c1_counterexample :
    transcribe_audio_with_whisper
        ⟨true, DlOutcome.failLate, DlOutcome.failEarly, 0, true, true, []⟩
      = (none, 1) := by rfl

/-- **C1 (amended)** — the temp file whose name was recorded is deleted on
every exit path (success, zero-length download, model-load failure,
exception mid-transcription, clean download failure), but a transport
attempt that raises after creating its temp file and before recording its
name leaks that partial file: the number of files left behind is exactly the
number of executed transport attempts that failed late. -/
theorem c1_cleanup (env : TranscribeEnv) :
    (transcribe_audio_with_whisper env).2
      = (if env.whisperInstalled = true ∧ env.m1 = DlOutcome.failLate then 1 else 0)
        + (if env.whisperInstalled = true ∧ env.m1 ≠ DlOutcome.ok ∧
              env.m2 = DlOutcome.failLate then 1 else 0) := by
  obtain ⟨w, m1, m2, fs, ml, tk, tx⟩ := env
  cases w <;> cases m1 <;> cases m2 <;>
    simp [transcribe_audio_with_whisper, afterDownload] <;>
    split_ifs <;> rfl
